import Mathlib

/-
  Shallow embedding of the two eBPF programs of the zeptor repository:
    src/bpf/xdp_router.c  (receive hook,  entry point xdp_router_prog)
    src/bpf/tc_cache.c    (transmit hook, entry point tc_http_cache)

  Modelling conventions:
  * A packet buffer is a `List Nat`; `data` is offset 0 and `data_end` is
    `pkt.length`.  Every memory read goes through `byteAt`, which returns
    `none` when the index is at or past `data_end` (an out-of-bounds
    dereference) and otherwise the byte value reduced mod 256 (the C type
    of every load is an unsigned byte, or is assembled from bytes below).
  * Both entry points return `Option result`: `none` models an unguarded
    out-of-bounds dereference (undefined behaviour, rejected by the BPF
    verifier), `some r` a normal run.  The early `return XDP_PASS` /
    `return TC_ACT_OK` paths of the C code are ordinary `some` results.
  * Multi-byte loads are modelled big-endian (network byte order), so the
    value compared with `bpf_htons(ETH_P_IP)` is the big-endian u16 and the
    value produced by `bpf_ntohs(tcp->dest)` is the big-endian u16; the raw
    4-byte method token load is likewise modelled as the big-endian u32, so
    the constant 0x47455420 corresponds to the in-memory bytes "GET ".
  * The BPF maps read by the programs (route_map / http_cache) are external
    state, modelled as lookup functions passed in as parameters; the percpu
    stats arrays are modelled as record parameters threaded through (an
    array-map lookup with an in-range constant key always succeeds, so the
    defensive `if (!stats_val)` / `if (count)` null tests of the C code are
    modelled as always taking the non-null branch).
  * `bpf_ktime_get_ns()` is a parameter `now`; the u64 subtraction
    `now - cached->timestamp` is modelled by `sub64`, subtraction mod 2^64.
  * The result records carry, besides the verdict and the counters,
    observation fields (`routeResult`, `dport`, `httpStart`, `methodRaw`,
    `urlInfo`, `hash`, `cacheResult`) recording whether the corresponding
    operation of the C code was reached and what it produced; they are set
    exactly at the source line performing the operation.
-/

/-- One byte of packet memory: `none` iff the offset is at or past
`data_end`; the stored value is a byte, i.e. reduced mod 256. -/
def byteAt (pkt : List Nat) (i : Nat) : Option Nat :=
  (pkt[i]?).map (fun b => b % 256)

/-- Big-endian (network byte order) 16-bit load. -/
def readU16be (pkt : List Nat) (i : Nat) : Option Nat := do
  let b0 ← byteAt pkt i
  let b1 ← byteAt pkt (i+1)
  pure (b0 * 256 + b1)

/-- Big-endian (network byte order) 32-bit load. -/
def readU32be (pkt : List Nat) (i : Nat) : Option Nat := do
  let b0 ← byteAt pkt i
  let b1 ← byteAt pkt (i+1)
  let b2 ← byteAt pkt (i+2)
  let b3 ← byteAt pkt (i+3)
  pure (((b0 * 256 + b1) * 256 + b2) * 256 + b3)

/-- Unsigned 64-bit subtraction `a - b` (the C `__u64` difference). -/
def sub64 (a b : Nat) : Nat :=
  (a % 2^64 + 2^64 - b % 2^64) % 2^64

def ETH_P_IP : Nat := 0x0800
def IPPROTO_TCP : Nat := 6
def HTTP_GET : Nat := 0x47455420
def HTTP_POST : Nat := 0x504f5354
def MAX_URL_LEN : Nat := 192
def CACHE_TTL_NS : Nat := 60000000000
def FNV_OFFSET : Nat := 0xcbf29ce484222325
def FNV_PRIME : Nat := 0x100000001b3

/- sizeof(struct ethhdr) = 14, sizeof(struct iphdr) = 20 (minimum),
   sizeof(struct tcphdr) = 20. -/
def ethhdr_size : Nat := 14
def iphdr_size : Nat := 20
def tcphdr_size : Nat := 20

/-- struct route_key of xdp_router.c. -/
structure RouteKey where
  prefix_len : Nat
  dest_ip : Nat
  dest_port : Nat
  protocol : Nat
deriving DecidableEq

/-- struct route_value of xdp_router.c (action: 1 = drop, 2 = redirect,
anything else = pass). -/
structure RouteValue where
  action : Nat
  backend_ip : Nat
  backend_port : Nat
deriving DecidableEq

/-- struct stats_value of xdp_router.c (the single percpu stats slot). -/
structure StatsValue where
  packets_total : Nat
  packets_passed : Nat
  packets_dropped : Nat
  cache_hits : Nat
deriving DecidableEq

/-- XDP verdicts used by xdp_router_prog. -/
inductive XdpAction where
  | pass
  | drop
  | tx
deriving DecidableEq

/-- Outcome of one of the static parse helpers: `oob` models an unguarded
out-of-bounds dereference, `fail` the C `return -1`, `ok` success. -/
inductive ParseResult (α : Type) where
  | oob : ParseResult α
  | fail : ParseResult α
  | ok : α → ParseResult α
deriving DecidableEq

/-- parse_eth of xdp_router.c: bounds-check the Ethernet header at `data`;
on success the header offset is 0. -/
def parse_eth (pkt : List Nat) : ParseResult Nat :=
  if ethhdr_size ≤ pkt.length then .ok 0 else .fail

/-- parse_ip of xdp_router.c: the IP header sits right after the Ethernet
header; bounds-check it, then require version = 4 (the version field is the
high nibble of the first header byte). -/
def parse_ip (pkt : List Nat) (eth : Nat) : ParseResult Nat :=
  let ip := eth + ethhdr_size
  if ip + iphdr_size ≤ pkt.length then
    match byteAt pkt ip with
    | none => .oob
    | some b0 => if b0 / 16 ≠ 4 then .fail else .ok ip
  else .fail

/-- parse_tcp of xdp_router.c: the TCP header sits `ihl * 4` bytes after the
IP header start (ihl is the low nibble of the first IP header byte, read
relying on the caller's bounds check); bounds-check the fixed TCP header. -/
def parse_tcp (pkt : List Nat) (ip : Nat) : ParseResult Nat :=
  match byteAt pkt ip with
  | none => .oob
  | some b0 =>
    let tcp := ip + (b0 % 16) * 4
    if tcp + tcphdr_size ≤ pkt.length then .ok tcp else .fail

/-- `stats_val->packets_total++` at the top of xdp_router_prog. -/
def xdpTick (s : StatsValue) : StatsValue :=
  { s with packets_total := s.packets_total + 1 }

/-- Result of one xdp_router_prog run: the verdict, the final stats slot,
and what the route lookup produced (`none`: the lookup was never reached;
`some none`: miss; `some (some v)`: hit on `v`). -/
structure XdpResult where
  verdict : XdpAction
  stats : StatsValue
  routeResult : Option (Option RouteValue)
deriving DecidableEq

/-- xdp_router_prog of xdp_router.c.  `route_map` is the external LPM-trie
lookup; `s` the initial percpu stats slot; `pkt` the packet. -/
def xdp_router_prog (route_map : RouteKey → Option RouteValue)
    (s : StatsValue) (pkt : List Nat) : Option XdpResult :=
  let st := xdpTick s
  match parse_eth pkt with
  | .oob => none
  | .fail => some ⟨.pass, st, none⟩
  | .ok eth =>
    match readU16be pkt (eth + 12) with
    | none => none
    | some h_proto =>
      if h_proto ≠ ETH_P_IP then some ⟨.pass, st, none⟩
      else
        match parse_ip pkt eth with
        | .oob => none
        | .fail => some ⟨.pass, st, none⟩
        | .ok ip =>
          match byteAt pkt (ip + 9) with
          | none => none
          | some protocol =>
            if protocol ≠ IPPROTO_TCP then some ⟨.pass, st, none⟩
            else
              match parse_tcp pkt ip with
              | .oob => none
              | .fail => some ⟨.pass, st, none⟩
              | .ok tcp =>
                match readU32be pkt (ip + 16) with
                | none => none
                | some daddr =>
                  match readU16be pkt (tcp + 2) with
                  | none => none
                  | some dport =>
                    let key : RouteKey := ⟨48, daddr, dport, protocol⟩
                    match route_map key with
                    | some route =>
                      if route.action = 1 then
                        some ⟨.drop,
                          { st with packets_dropped := st.packets_dropped + 1 },
                          some (some route)⟩
                      else if route.action = 2 then
                        some ⟨.tx,
                          { st with packets_passed := st.packets_passed + 1 },
                          some (some route)⟩
                      else
                        some ⟨.pass,
                          { st with packets_passed := st.packets_passed + 1 },
                          some (some route)⟩
                    | none =>
                      some ⟨.pass,
                        { st with packets_passed := st.packets_passed + 1 },
                        some none⟩

/-- struct cache_key of tc_cache.c (method: 1 = GET, 2 = POST). -/
structure CacheKey where
  hash : Nat
  method : Nat
  port : Nat
deriving DecidableEq

/-- struct cache_value of tc_cache.c. -/
structure CacheValue where
  timestamp : Nat
  status : Nat
  content_len : Nat
  content_type : Nat
  body : List Nat
deriving DecidableEq

/-- The four-slot percpu stats array of tc_cache.c; slot 0 counts every
invocation, slot 1 counts fresh cache hits, slots 2 and 3 are never
touched by the program. -/
structure TcStats where
  total : Nat
  hits : Nat
  slot2 : Nat
  slot3 : Nat
deriving DecidableEq

def TC_ACT_OK : Nat := 0

/-- The unconditional `(*count)++` on stats slot 0 at the top of
tc_http_cache. -/
def tcTick (s : TcStats) : TcStats :=
  { s with total := s.total + 1 }

/-- 64-bit FNV-1a inner loop of fnv1a_hash: from offset `pos`, fold `n`
bytes of packet memory into `hash` (`none` iff a byte load would be out of
bounds). -/
def fnv1a_go (pkt : List Nat) (pos : Nat) (hash : Nat) : Nat → Option Nat
  | 0 => some hash
  | n+1 =>
    match byteAt pkt pos with
    | none => none
    | some b => fnv1a_go pkt (pos+1) (((hash ^^^ b) * FNV_PRIME) % 2^64) n

/-- fnv1a_hash of tc_cache.c: FNV-1a over the `len` bytes at offset
`start`, capped at 256 bytes (the loop runs while `i < 256 && i < len`). -/
def fnv1a_hash (pkt : List Nat) (start len : Nat) : Option Nat :=
  fnv1a_go pkt start FNV_OFFSET (min 256 len)

/-- parse_http_start of tc_cache.c: the payload begins `doff * 4` bytes
after the TCP header start (doff is the high nibble of TCP header byte 12,
read relying on the caller's bounds check); bounds-check 4 bytes and load
the raw 4-byte method token.  Returns (payload offset, token). -/
def parse_http_start (pkt : List Nat) (tcp : Nat) : ParseResult (Nat × Nat) :=
  match byteAt pkt (tcp + 12) with
  | none => .oob
  | some b12 =>
    let start := tcp + (b12 / 16) * 4
    if start + 4 ≤ pkt.length then
      match readU32be pkt start with
      | none => .oob
      | some m => .ok (start, m)
    else .fail

/-- The method classification of tc_http_cache: GET is 1, POST is 2,
anything else 0. -/
def classify_method (method_raw : Nat) : Nat :=
  if method_raw = HTTP_GET then 1 else if method_raw = HTTP_POST then 2 else 0

/-- The URL delimiter test of the tc_http_cache scan loop:
space, carriage return or line feed. -/
def delim (c : Nat) : Bool :=
  c == 32 || c == 13 || c == 10

/-- The bounded URL scan loop of tc_http_cache: starting at offset `pos`
count bytes until the first delimiter, the buffer end, or the iteration
budget (`MAX_URL_LEN` at the call site), whichever comes first.  Each byte
is checked against `data_end` before it is read, exactly as in the C loop,
so the scan itself cannot fault. -/
def url_scan (pkt : List Nat) (pos : Nat) : Nat → Nat
  | 0 => 0
  | n+1 =>
    match byteAt pkt pos with
    | none => 0
    | some c => if delim c then 0 else 1 + url_scan pkt (pos+1) n

/-- Result of one tc_http_cache run: the verdict (always `TC_ACT_OK`), the
final stats slots, and observation fields set exactly where the C code
performs the corresponding step: `dport` once the port check is reached,
`httpStart`/`methodRaw` once parse_http_start succeeded, `urlInfo` =
(url start offset, scanned length) once the URL scan ran, `hash` once the
fingerprint was computed, `cacheResult` once the cache lookup ran
(`some none`: miss; `some (some v)`: hit on `v`). -/
structure TcResult where
  verdict : Nat
  stats : TcStats
  dport : Option Nat
  httpStart : Option Nat
  methodRaw : Option Nat
  urlInfo : Option (Nat × Nat)
  hash : Option Nat
  cacheResult : Option (Option CacheValue)
deriving DecidableEq

/-- An early `return TC_ACT_OK` with no observation fields set. -/
def tcBail (st : TcStats) : TcResult :=
  ⟨TC_ACT_OK, st, none, none, none, none, none, none⟩

/-- tc_http_cache of tc_cache.c.  `http_cache` is the external LRU-hash
lookup, `now` the value of bpf_ktime_get_ns(), `s` the initial percpu
stats slots, `pkt` the packet.  Note the inline IP parse of this hook
checks bounds and protocol but, unlike parse_ip of the receive hook, never
reads the IP version field. -/
def tc_http_cache (http_cache : CacheKey → Option CacheValue) (now : Nat)
    (s : TcStats) (pkt : List Nat) : Option TcResult :=
  let st := tcTick s
  if pkt.length < ethhdr_size then some (tcBail st) else
  match readU16be pkt 12 with
  | none => none
  | some h_proto =>
  if h_proto ≠ ETH_P_IP then some (tcBail st) else
  if pkt.length < ethhdr_size + iphdr_size then some (tcBail st) else
  match byteAt pkt (14 + 9) with
  | none => none
  | some protocol =>
  if protocol ≠ IPPROTO_TCP then some (tcBail st) else
  match byteAt pkt 14 with
  | none => none
  | some b0 =>
  let tcp := 14 + (b0 % 16) * 4
  if pkt.length < tcp + tcphdr_size then some (tcBail st) else
  match readU16be pkt (tcp + 2) with
  | none => none
  | some dport =>
  if dport ≠ 80 ∧ dport ≠ 8080 ∧ dport ≠ 3000 then
    some { tcBail st with dport := some dport } else
  match parse_http_start pkt tcp with
  | .oob => none
  | .fail => some { tcBail st with dport := some dport }
  | .ok (start, method_raw) =>
  let method : Nat := classify_method method_raw
  if method ≠ 1 then
    some { tcBail st with
             dport := some dport,
             httpStart := some start,
             methodRaw := some method_raw } else
  let url_start := start + 4
  let url_len := url_scan pkt url_start MAX_URL_LEN
  if url_len = 0 then
    some { tcBail st with
             dport := some dport,
             httpStart := some start,
             methodRaw := some method_raw,
             urlInfo := some (url_start, url_len) } else
  match fnv1a_hash pkt url_start url_len with
  | none => none
  | some h =>
  let key : CacheKey := ⟨h, method, dport⟩
  match http_cache key with
  | some cached =>
    if sub64 now cached.timestamp < CACHE_TTL_NS then
      some ⟨TC_ACT_OK, { st with hits := st.hits + 1 }, some dport, some start,
            some method_raw, some (url_start, url_len), some h, some (some cached)⟩
    else
      some ⟨TC_ACT_OK, st, some dport, some start,
            some method_raw, some (url_start, url_len), some h, some (some cached)⟩
  | none =>
    some ⟨TC_ACT_OK, st, some dport, some start,
          some method_raw, some (url_start, url_len), some h, some none⟩

/-- FNV-1a fold over an explicit byte list, one step per byte:
xor the byte in, multiply by the prime, truncate to 64 bits. -/
def fnv1a_fold (hash : Nat) : List Nat → Nat
  | [] => hash
  | b :: t => fnv1a_fold (((hash ^^^ b) * FNV_PRIME) % 2^64) t

/-- The 64-bit FNV-1a fingerprint as the spec describes it: the FNV-1a fold
with the standard offset basis applied to at most the first 256 bytes of
the input. -/
def fnv1a_spec (bytes : List Nat) : Nat :=
  fnv1a_fold FNV_OFFSET (bytes.take 256)

/-- The stats slot after one xdp_router_prog invocation (the run never
produces `none`, so the default is never taken). -/
def xdp_step_stats (route_map : RouteKey → Option RouteValue) (s : StatsValue)
    (pkt : List Nat) : StatsValue :=
  ((xdp_router_prog route_map s pkt).map XdpResult.stats).getD s

/-- The stats slot after a sequence of xdp_router_prog invocations. -/
def xdp_run_all (route_map : RouteKey → Option RouteValue) (s : StatsValue) :
    List (List Nat) → StatsValue
  | [] => s
  | pkt :: rest => xdp_run_all route_map (xdp_step_stats route_map s pkt) rest

/-- A minimal well-formed Ethernet/IPv4/TCP frame (54 bytes): ethertype
0x0800, version 4, ihl 5, protocol TCP, destination 10.0.0.1, destination
port 80, data offset 5. -/
def pktTcp : List Nat :=
  [0, 0, 0, 0, 0, 0, 0, 0, 0, 0, 0, 0, 0x08, 0x00,
   0x45, 0, 0, 0, 0, 0, 0, 0, 64, 6, 0, 0, 0, 0, 0, 0, 10, 0, 0, 1,
   0x1f, 0x90, 0x00, 0x50, 0, 0, 0, 0, 0, 0, 0, 0, 0x50, 0x18, 0, 0, 0, 0,
   0, 0]

/-- pktTcp followed by the payload bytes of "GET /a HTTP". -/
def pktGet : List Nat :=
  pktTcp ++ [0x47, 0x45, 0x54, 0x20, 0x2f, 0x61, 0x20, 0x48, 0x54, 0x54, 0x50]

/-- pktGet with the IP version nibble set to 5 (not IPv4). -/
def pktGet5 : List Nat := pktGet.set 14 0x55

/-- pktGet with TCP destination port 9999. -/
def pktPort9999 : List Nat := (pktGet.set 36 0x27).set 37 0x0f

/-- A 14-byte frame with ethertype 0x0806 (ARP). -/
def pktArp : List Nat := [0, 0, 0, 0, 0, 0, 0, 0, 0, 0, 0, 0, 0x08, 0x06]

/-- pktTcp followed by a GET whose URL is 200 bytes of "/" with no
delimiter. -/
def pktLong : List Nat :=
  pktTcp ++ [0x47, 0x45, 0x54, 0x20] ++ List.replicate 200 0x2f

def s0 : StatsValue := ⟨0, 0, 0, 0⟩

def t0 : TcStats := ⟨0, 0, 0, 0⟩

/-- A cache entry written at time 100. -/
def v0 : CacheValue := ⟨100, 200, 2, 1, []⟩

/-- A cache whose lookup always hits on v0. -/
def cache0 : CacheKey → Option CacheValue := fun _ => some v0

/-- A cache whose lookup always misses. -/
def emptyCache : CacheKey → Option CacheValue := fun _ => none

/-- The transmit-hook run on pktGet against cache0 at time 105 (fresh). -/
def tcGetRun : TcResult := (tc_http_cache cache0 105 t0 pktGet).getD (tcBail t0)

/-- The transmit-hook run on pktGet against cache0 at time 60000000100,
exactly TTL nanoseconds after the entry was written. -/
def tcStaleRun : TcResult :=
  (tc_http_cache cache0 60000000100 t0 pktGet).getD (tcBail t0)

/-- The transmit-hook run on pktLong against the empty cache. -/
def tcLongRun : TcResult :=
  (tc_http_cache emptyCache 0 t0 pktLong).getD (tcBail t0)

/-- The transmit-hook run on pktPort9999. -/
def tcPortRun : TcResult :=
  (tc_http_cache cache0 105 t0 pktPort9999).getD (tcBail t0)

/-- The receive-hook run on pktTcp when every lookup hits an entry with
action 0 (explicit pass). -/
def xdpRun0 : XdpResult :=
  (xdp_router_prog (fun _ => some ⟨0, 0, 0⟩) s0 pktTcp).getD ⟨XdpAction.pass, s0, none⟩

/-- The receive-hook run on pktTcp when every lookup hits an entry with
the out-of-range action 7. -/
def xdpRun7 : XdpResult :=
  (xdp_router_prog (fun _ => some ⟨7, 0, 0⟩) s0 pktTcp).getD ⟨XdpAction.pass, s0, none⟩


theorem byteAt_none {pkt : List Nat} {i : Nat} (h : byteAt pkt i = none) :
    pkt.length ≤ i := by
  unfold byteAt at h
  cases hg : pkt[i]? with
  | none => exact List.getElem?_eq_none_iff.mp hg
  | some b => rw [hg] at h; simp at h

theorem readU16be_none {pkt : List Nat} {i : Nat} (h : readU16be pkt i = none) :
    pkt.length < i + 2 := by
  unfold readU16be at h
  cases h0 : byteAt pkt i with
  | none => have := byteAt_none h0; omega
  | some b0 =>
    rw [h0] at h
    cases h1 : byteAt pkt (i+1) with
    | none => have := byteAt_none h1; omega
    | some b1 => rw [h1] at h; simp at h

theorem readU32be_none {pkt : List Nat} {i : Nat} (h : readU32be pkt i = none) :
    pkt.length < i + 4 := by
  unfold readU32be at h
  cases h0 : byteAt pkt i with
  | none => have := byteAt_none h0; omega
  | some b0 =>
    rw [h0] at h
    cases h1 : byteAt pkt (i+1) with
    | none => have := byteAt_none h1; omega
    | some b1 =>
      rw [h1] at h
      cases h2 : byteAt pkt (i+2) with
      | none => have := byteAt_none h2; omega
      | some b2 =>
        rw [h2] at h
        cases h3 : byteAt pkt (i+3) with
        | none => have := byteAt_none h3; omega
        | some b3 => rw [h3] at h; simp at h

theorem parse_eth_ne_oob {pkt : List Nat} : parse_eth pkt ≠ ParseResult.oob := by
  unfold parse_eth; split <;> simp

theorem parse_eth_ok {pkt : List Nat} {e : Nat} (h : parse_eth pkt = .ok e) :
    e = 0 ∧ 14 ≤ pkt.length := by
  unfold parse_eth at h
  split at h
  · cases h; exact ⟨rfl, by simpa [ethhdr_size] using ‹ethhdr_size ≤ pkt.length›⟩
  · cases h

theorem parse_ip_ne_oob {pkt : List Nat} {eth : Nat} : parse_ip pkt eth ≠ ParseResult.oob := by
  unfold parse_ip
  simp only []
  split
  · cases h0 : byteAt pkt (eth + ethhdr_size) with
    | none =>
      have h1 := byteAt_none h0
      have h2 : eth + ethhdr_size + iphdr_size ≤ pkt.length := by assumption
      simp [iphdr_size] at h2
      omega
    | some b0 => simp; split <;> simp
  · simp

theorem parse_ip_ok {pkt : List Nat} {eth ip : Nat} (h : parse_ip pkt eth = .ok ip) :
    ip = eth + 14 ∧ ip + 20 ≤ pkt.length ∧
      ∃ b, byteAt pkt (eth + 14) = some b ∧ b / 16 = 4 := by
  unfold parse_ip at h
  simp only [] at h
  by_cases hlen : eth + ethhdr_size + iphdr_size ≤ pkt.length
  · rw [if_pos hlen] at h
    cases h0 : byteAt pkt (eth + ethhdr_size) with
    | none => simp [h0] at h
    | some b0 =>
      rw [h0] at h
      by_cases hb : b0 / 16 = 4
      · simp [hb] at h
        subst h
        refine ⟨by simp [ethhdr_size], ?_, b0, by simpa [ethhdr_size] using h0, hb⟩
        simp [ethhdr_size, iphdr_size] at hlen ⊢
        omega
      · simp [hb] at h
  · rw [if_neg hlen] at h
    cases h

theorem parse_tcp_ne_oob {pkt : List Nat} {ip : Nat} (hip : ip < pkt.length) :
    parse_tcp pkt ip ≠ ParseResult.oob := by
  unfold parse_tcp
  simp only []
  cases h0 : byteAt pkt ip with
  | none => have := byteAt_none h0; omega
  | some b0 => simp; split <;> simp

theorem parse_tcp_ok {pkt : List Nat} {ip tcp : Nat} (h : parse_tcp pkt ip = .ok tcp) :
    tcp + 20 ≤ pkt.length ∧ ∃ b, byteAt pkt ip = some b ∧ tcp = ip + (b % 16) * 4 := by
  unfold parse_tcp at h
  simp only [] at h
  cases h0 : byteAt pkt ip with
  | none => simp [h0] at h
  | some b0 =>
    rw [h0] at h
    by_cases hlen : ip + (b0 % 16) * 4 + tcphdr_size ≤ pkt.length
    · simp [hlen] at h
      subst h
      exact ⟨by simpa [tcphdr_size] using hlen, b0, rfl, rfl⟩
    · simp [hlen] at h

theorem parse_http_start_ne_oob {pkt : List Nat} {tcp : Nat}
    (hb : tcp + 13 ≤ pkt.length) : parse_http_start pkt tcp ≠ ParseResult.oob := by
  unfold parse_http_start
  simp only []
  cases h0 : byteAt pkt (tcp + 12) with
  | none => have := byteAt_none h0; omega
  | some b12 =>
    simp only []
    by_cases hlen : tcp + b12 / 16 * 4 + 4 ≤ pkt.length
    · rw [if_pos hlen]
      cases h1 : readU32be pkt (tcp + b12 / 16 * 4) with
      | none => have := readU32be_none h1; omega
      | some m => simp
    · rw [if_neg hlen]; simp

theorem parse_http_start_ok {pkt : List Nat} {tcp s m : Nat}
    (h : parse_http_start pkt tcp = .ok (s, m)) :
    s + 4 ≤ pkt.length ∧
      ∃ b, byteAt pkt (tcp + 12) = some b ∧ s = tcp + (b / 16) * 4 ∧
        readU32be pkt s = some m := by
  unfold parse_http_start at h
  simp only [] at h
  cases h0 : byteAt pkt (tcp + 12) with
  | none => simp [h0] at h
  | some b12 =>
    rw [h0] at h
    simp only [] at h
    by_cases hlen : tcp + b12 / 16 * 4 + 4 ≤ pkt.length
    · rw [if_pos hlen] at h
      cases h1 : readU32be pkt (tcp + b12 / 16 * 4) with
      | none => simp [h1] at h
      | some m0 =>
        rw [h1] at h
        simp at h
        obtain ⟨hs, hm⟩ := h
        subst hs; subst hm
        exact ⟨hlen, b12, rfl, rfl, h1⟩
    · rw [if_neg hlen] at h
      cases h

theorem url_scan_zero_or_le (pkt : List Nat) (n : Nat) : ∀ pos : Nat,
    url_scan pkt pos n = 0 ∨ pos + url_scan pkt pos n ≤ pkt.length := by
  induction n with
  | zero => intro pos; left; rfl
  | succ n ih =>
    intro pos
    rw [url_scan]
    cases h0 : byteAt pkt pos with
    | none => left; rfl
    | some c =>
      by_cases hd : delim c
      · left; simp [hd]
      · right
        simp only [hd, Bool.false_eq_true, if_false]
        have hlt : pos < pkt.length := by
          by_contra hh
          have hnone : pkt[pos]? = none := List.getElem?_eq_none (Nat.le_of_not_lt hh)
          simp [byteAt, hnone] at h0
        rcases ih (pos + 1) with h1 | h1
        · omega
        · omega

theorem fnv1a_go_none {pkt : List Nat} {pos hash n : Nat}
    (h : fnv1a_go pkt pos hash n = none) : pkt.length < pos + n := by
  induction n generalizing pos hash with
  | zero => simp [fnv1a_go] at h
  | succ n ih =>
    rw [fnv1a_go] at h
    cases h0 : byteAt pkt pos with
    | none => have := byteAt_none h0; omega
    | some b =>
      rw [h0] at h
      have := ih h
      omega

theorem xdp_not_none (route_map : RouteKey → Option RouteValue) (s : StatsValue)
    (pkt : List Nat) : xdp_router_prog route_map s pkt ≠ none := by
  unfold xdp_router_prog
  simp only []
  split
  · rename_i heth
    exact absurd heth parse_eth_ne_oob
  · simp
  · rename_i eth heth
    obtain ⟨he0, hlen⟩ := parse_eth_ok heth
    subst he0
    split
    · rename_i h16
      have := readU16be_none h16
      omega
    · rename_i h_proto h16
      split
      · simp
      · split
        · rename_i hip
          exact absurd hip parse_ip_ne_oob
        · simp
        · rename_i ip hip
          obtain ⟨hip14, hiplen, b, hb, hbv⟩ := parse_ip_ok hip
          split
          · rename_i h9
            have := byteAt_none h9
            omega
          · rename_i protocol h9
            split
            · simp
            · split
              · rename_i htcp
                exact absurd htcp (parse_tcp_ne_oob (by omega))
              · simp
              · rename_i tcp htcp
                obtain ⟨htcplen, b2, hb2, htcpeq⟩ := parse_tcp_ok htcp
                split
                · rename_i h32
                  have := readU32be_none h32
                  omega
                · rename_i daddr h32
                  split
                  · rename_i hd
                    have := readU16be_none hd
                    omega
                  · rename_i dport hd
                    split
                    · split
                      · simp
                      · split <;> simp
                    · simp

set_option maxHeartbeats 2000000 in
theorem tc_not_none (http_cache : CacheKey → Option CacheValue) (now : Nat)
    (s : TcStats) (pkt : List Nat) : tc_http_cache http_cache now s pkt ≠ none := by
  unfold tc_http_cache
  simp only [ethhdr_size, iphdr_size, tcphdr_size]
  split
  · exact fun hc => Option.noConfusion hc
  · rename_i hlen14
    split
    · rename_i h16
      have := readU16be_none h16
      omega
    · rename_i h_proto h16
      split
      · exact fun hc => Option.noConfusion hc
      · split
        · exact fun hc => Option.noConfusion hc
        · rename_i hproto hlen34
          split
          · rename_i h23
            have := byteAt_none h23
            omega
          · rename_i protocol h23
            split
            · exact fun hc => Option.noConfusion hc
            · split
              · rename_i h14
                have := byteAt_none h14
                omega
              · rename_i b0 h14
                split
                · exact fun hc => Option.noConfusion hc
                · rename_i hlentcp
                  split
                  · rename_i hd
                    have := readU16be_none hd
                    omega
                  · rename_i dport hd
                    split
                    · exact fun hc => Option.noConfusion hc
                    · split
                      · rename_i hhttp
                        exact absurd hhttp (parse_http_start_ne_oob (by omega))
                      · exact fun hc => Option.noConfusion hc
                      · rename_i p start method_raw hhttp
                        split
                        · exact fun hc => Option.noConfusion hc
                        · rename_i hmeth
                          split
                          · exact fun hc => Option.noConfusion hc
                          · rename_i hurl0
                            split
                            · rename_i hfnv
                              unfold fnv1a_hash at hfnv
                              have h1 := fnv1a_go_none hfnv
                              have h2 :=
                                url_scan_zero_or_le pkt MAX_URL_LEN (start + 4)
                              have h3 : min 256 (url_scan pkt (start + 4) MAX_URL_LEN) ≤
                                  url_scan pkt (start + 4) MAX_URL_LEN :=
                                Nat.min_le_right _ _
                              rcases h2 with h2 | h2
                              · exact absurd h2 hurl0
                              · omega
                            · rename_i h hfnv
                              split
                              · split <;> exact fun hc => Option.noConfusion hc
                              · exact fun hc => Option.noConfusion hc

set_option maxHeartbeats 2000000 in
theorem tc_run_shape (http_cache : CacheKey → Option CacheValue) (now : Nat)
    (s : TcStats) (pkt : List Nat) (r : TcResult)
    (h : tc_http_cache http_cache now s pkt = some r) :
    r.verdict = TC_ACT_OK ∧ r.stats.total = s.total + 1 ∧
      r.stats.slot2 = s.slot2 ∧ r.stats.slot3 = s.slot3 ∧
      (r.stats.hits = s.hits ∨ r.stats.hits = s.hits + 1) := by
  unfold tc_http_cache at h
  simp only [] at h
  repeat' split at h
  all_goals first
    | exact Option.noConfusion h
    | (injection h with h
       subst h
       simp [tcBail, tcTick, TC_ACT_OK])

set_option maxHeartbeats 2000000 in
theorem tc_bail_shape (http_cache : CacheKey → Option CacheValue) (now : Nat)
    (s : TcStats) (pkt : List Nat) (r : TcResult)
    (h : tc_http_cache http_cache now s pkt = some r) (hcr : r.cacheResult = none) :
    r.verdict = TC_ACT_OK ∧ r.hash = none ∧ r.stats = tcTick s := by
  unfold tc_http_cache at h
  simp only [] at h
  repeat' split at h
  all_goals first
    | exact Option.noConfusion h
    | (injection h with h
       subst h
       simp_all [tcBail, tcTick, TC_ACT_OK])

set_option maxHeartbeats 2000000 in
theorem tc_hit_shape (http_cache : CacheKey → Option CacheValue) (now : Nat)
    (s : TcStats) (pkt : List Nat) (r : TcResult) (v : CacheValue)
    (h : tc_http_cache http_cache now s pkt = some r)
    (hcr : r.cacheResult = some (some v)) :
    (sub64 now v.timestamp < CACHE_TTL_NS →
        r.stats = ⟨s.total + 1, s.hits + 1, s.slot2, s.slot3⟩) ∧
    (¬ sub64 now v.timestamp < CACHE_TTL_NS →
        r.stats = ⟨s.total + 1, s.hits, s.slot2, s.slot3⟩) := by
  unfold tc_http_cache at h
  simp only [] at h
  repeat' split at h
  all_goals first
    | exact Option.noConfusion h
    | (injection h with h
       subst h
       simp_all [tcBail, tcTick, TC_ACT_OK])

set_option maxHeartbeats 2000000 in
theorem tc_miss_shape (http_cache : CacheKey → Option CacheValue) (now : Nat)
    (s : TcStats) (pkt : List Nat) (r : TcResult)
    (h : tc_http_cache http_cache now s pkt = some r)
    (hcr : r.cacheResult = some none) :
    r.stats = ⟨s.total + 1, s.hits, s.slot2, s.slot3⟩ := by
  unfold tc_http_cache at h
  simp only [] at h
  repeat' split at h
  all_goals first
    | exact Option.noConfusion h
    | (injection h with h
       subst h
       simp_all [tcBail, tcTick, TC_ACT_OK])

set_option maxHeartbeats 2000000 in
theorem tc_port_shape (http_cache : CacheKey → Option CacheValue) (now : Nat)
    (s : TcStats) (pkt : List Nat) (r : TcResult) (d : Nat)
    (h : tc_http_cache http_cache now s pkt = some r) (hd : r.dport = some d)
    (h80 : d ≠ 80) (h8080 : d ≠ 8080) (h3000 : d ≠ 3000) :
    r.verdict = TC_ACT_OK ∧ r.httpStart = none ∧ r.methodRaw = none ∧
      r.urlInfo = none ∧ r.hash = none ∧ r.cacheResult = none ∧
      r.stats = tcTick s := by
  unfold tc_http_cache at h
  simp only [] at h
  repeat' split at h
  all_goals first
    | exact Option.noConfusion h
    | (injection h with h
       subst h
       simp_all [tcBail, tcTick, TC_ACT_OK])

set_option maxHeartbeats 2000000 in
theorem tc_url_shape (http_cache : CacheKey → Option CacheValue) (now : Nat)
    (s : TcStats) (pkt : List Nat) (r : TcResult) (ust len : Nat)
    (h : tc_http_cache http_cache now s pkt = some r)
    (hu : r.urlInfo = some (ust, len)) :
    (∃ hs, r.httpStart = some hs ∧ ust = hs + 4) ∧
      len = url_scan pkt ust MAX_URL_LEN ∧
      (len = 0 → r.hash = none ∧ r.cacheResult = none ∧ r.stats = tcTick s) := by
  unfold tc_http_cache at h
  simp only [] at h
  repeat' split at h
  all_goals first
    | exact Option.noConfusion h
    | (injection h with h
       subst h
       simp_all [tcBail, tcTick, TC_ACT_OK]
       done)
    | (injection h with h
       subst h
       simp_all [tcBail, tcTick, TC_ACT_OK]
       obtain ⟨hu1, hu2⟩ := hu
       subst hu1
       subst hu2
       simp_all)

set_option maxHeartbeats 2000000 in
theorem xdp_run_shape (route_map : RouteKey → Option RouteValue) (s : StatsValue)
    (pkt : List Nat) (r : XdpResult)
    (h : xdp_router_prog route_map s pkt = some r) :
    r.stats.packets_total = s.packets_total + 1 ∧
      r.stats.cache_hits = s.cache_hits ∧
      ((r.stats.packets_passed = s.packets_passed ∧
          r.stats.packets_dropped = s.packets_dropped) ∨
       (r.stats.packets_passed = s.packets_passed + 1 ∧
          r.stats.packets_dropped = s.packets_dropped) ∨
       (r.stats.packets_passed = s.packets_passed ∧
          r.stats.packets_dropped = s.packets_dropped + 1)) := by
  unfold xdp_router_prog at h
  simp only [] at h
  repeat' split at h
  all_goals first
    | exact Option.noConfusion h
    | (injection h with h
       subst h
       simp_all [xdpTick])

set_option maxHeartbeats 2000000 in
theorem xdp_bail_shape (route_map : RouteKey → Option RouteValue) (s : StatsValue)
    (pkt : List Nat) (r : XdpResult)
    (h : xdp_router_prog route_map s pkt = some r) (hrr : r.routeResult = none) :
    r.verdict = XdpAction.pass ∧ r.stats = xdpTick s := by
  unfold xdp_router_prog at h
  simp only [] at h
  repeat' split at h
  all_goals first
    | exact Option.noConfusion h
    | (injection h with h
       subst h
       simp_all [xdpTick])

set_option maxHeartbeats 2000000 in
theorem xdp_hit_shape (route_map : RouteKey → Option RouteValue) (s : StatsValue)
    (pkt : List Nat) (r : XdpResult) (v : RouteValue)
    (h : xdp_router_prog route_map s pkt = some r)
    (hrr : r.routeResult = some (some v)) :
    (v.action = 1 → r.verdict = XdpAction.drop ∧
        r.stats = ⟨s.packets_total + 1, s.packets_passed,
                   s.packets_dropped + 1, s.cache_hits⟩) ∧
    (v.action = 2 → r.verdict = XdpAction.tx ∧
        r.stats = ⟨s.packets_total + 1, s.packets_passed + 1,
                   s.packets_dropped, s.cache_hits⟩) ∧
    (v.action ≠ 1 → v.action ≠ 2 → r.verdict = XdpAction.pass ∧
        r.stats = ⟨s.packets_total + 1, s.packets_passed + 1,
                   s.packets_dropped, s.cache_hits⟩) := by
  unfold xdp_router_prog at h
  simp only [] at h
  repeat' split at h
  all_goals first
    | exact Option.noConfusion h
    | (injection h with h
       subst h
       simp_all [xdpTick])

theorem xdp_nonip_shape (route_map : RouteKey → Option RouteValue) (s : StatsValue)
    (pkt : List Nat) (r : XdpResult) (p : Nat)
    (h : xdp_router_prog route_map s pkt = some r)
    (hp : readU16be pkt 12 = some p) (hne : p ≠ ETH_P_IP) :
    r.verdict = XdpAction.pass ∧ r.routeResult = none ∧ r.stats = xdpTick s := by
  unfold xdp_router_prog at h
  simp only [] at h
  split at h
  · exact Option.noConfusion h
  · injection h with h
    subst h
    exact ⟨rfl, rfl, rfl⟩
  · rename_i eth heth
    obtain ⟨he0, hlen⟩ := parse_eth_ok heth
    subst he0
    split at h
    · exact Option.noConfusion h
    · rename_i hpr h16
      split at h
      · injection h with h
        subst h
        exact ⟨rfl, rfl, rfl⟩
      · exfalso
        rename_i hcond
        simp only [Nat.zero_add] at h16
        rw [hp] at h16
        injection h16 with h16
        subst h16
        exact hne (by tauto)

theorem xdp_version_shape (route_map : RouteKey → Option RouteValue) (s : StatsValue)
    (pkt : List Nat) (r : XdpResult) (bv : Nat)
    (h : xdp_router_prog route_map s pkt = some r)
    (hv : byteAt pkt 14 = some bv) (hnv : bv / 16 ≠ 4) :
    r.verdict = XdpAction.pass ∧ r.routeResult = none ∧ r.stats = xdpTick s := by
  unfold xdp_router_prog at h
  simp only [] at h
  split at h
  · exact Option.noConfusion h
  · injection h with h
    subst h
    exact ⟨rfl, rfl, rfl⟩
  · rename_i eth heth
    obtain ⟨he0, hlen⟩ := parse_eth_ok heth
    subst he0
    split at h
    · exact Option.noConfusion h
    · rename_i hpr h16
      split at h
      · injection h with h
        subst h
        exact ⟨rfl, rfl, rfl⟩
      · split at h
        · exact Option.noConfusion h
        · injection h with h
          subst h
          exact ⟨rfl, rfl, rfl⟩
        · rename_i ip hip
          exfalso
          obtain ⟨hip14, hiplen, b, hb, hb4⟩ := parse_ip_ok hip
          simp only [Nat.zero_add] at hb
          rw [hv] at hb
          injection hb with hb
          subst hb
          exact hnv hb4

theorem tc_nonip_shape (http_cache : CacheKey → Option CacheValue) (now : Nat)
    (s : TcStats) (pkt : List Nat) (r : TcResult) (p : Nat)
    (h : tc_http_cache http_cache now s pkt = some r)
    (hp : readU16be pkt 12 = some p) (hne : p ≠ ETH_P_IP) :
    r.verdict = TC_ACT_OK ∧ r.cacheResult = none ∧ r.stats = tcTick s := by
  unfold tc_http_cache at h
  simp only [] at h
  split at h
  · injection h with h
    subst h
    exact ⟨rfl, rfl, rfl⟩
  · split at h
    · exact Option.noConfusion h
    · rename_i hpr h16
      split at h
      · injection h with h
        subst h
        exact ⟨rfl, rfl, rfl⟩
      · exfalso
        rename_i hcond
        rw [hp] at h16
        injection h16 with h16
        subst h16
        exact hne (by tauto)

theorem url_scan_eq (pkt : List Nat) (n : Nat) : ∀ pos : Nat,
    url_scan pkt pos n =
      (((pkt.drop pos).take n).takeWhile (fun c => !(delim (c % 256)))).length := by
  induction n with
  | zero => intro pos; simp [url_scan]
  | succ n ih =>
    intro pos
    by_cases hlt : pos < pkt.length
    · have hdrop : pkt.drop pos = pkt[pos] :: pkt.drop (pos + 1) :=
        List.drop_eq_getElem_cons hlt
      have hbyte : byteAt pkt pos = some (pkt[pos] % 256) := by
        simp [byteAt, List.getElem?_eq_getElem hlt]
      rw [url_scan, hbyte, hdrop]
      simp only [List.take_succ_cons, List.takeWhile_cons]
      by_cases hd : delim (pkt[pos] % 256)
      · simp [hd]
      · simp [hd, ih (pos + 1)]
        omega
    · have hdrop : pkt.drop pos = [] := List.drop_eq_nil_of_le (Nat.le_of_not_lt hlt)
      have hbyte : byteAt pkt pos = none := by
        simp [byteAt, List.getElem?_eq_none (Nat.le_of_not_lt hlt)]
      rw [url_scan, hbyte, hdrop]
      simp

theorem fnv1a_go_eq (pkt : List Nat) : ∀ (n pos hash : Nat),
    pos + n ≤ pkt.length →
      fnv1a_go pkt pos hash n =
        some (fnv1a_fold hash (((pkt.drop pos).take n).map (fun b => b % 256))) := by
  intro n
  induction n with
  | zero => intro pos hash hle; simp [fnv1a_go, fnv1a_fold]
  | succ n ih =>
    intro pos hash hle
    have hlt : pos < pkt.length := by omega
    have hdrop : pkt.drop pos = pkt[pos] :: pkt.drop (pos + 1) :=
      List.drop_eq_getElem_cons hlt
    have hbyte : byteAt pkt pos = some (pkt[pos] % 256) := by
      simp [byteAt, List.getElem?_eq_getElem hlt]
    rw [fnv1a_go, hbyte, hdrop]
    simp only [List.take_succ_cons, List.map_cons]
    rw [fnv1a_fold, ih (pos + 1) _ (by omega)]

theorem fnv1a_hash_eq (pkt : List Nat) (start len : Nat)
    (h : start + min 256 len ≤ pkt.length) :
    fnv1a_hash pkt start len =
      some (fnv1a_spec (((pkt.drop start).take len).map (fun b => b % 256))) := by
  unfold fnv1a_hash fnv1a_spec
  rw [fnv1a_go_eq pkt (min 256 len) start FNV_OFFSET h]
  congr 1
  rw [List.map_take, List.map_take, List.take_take]

theorem xdp_step_stats_spec (route_map : RouteKey → Option RouteValue)
    (s : StatsValue) (pkt : List Nat) :
    (xdp_step_stats route_map s pkt).packets_total = s.packets_total + 1 ∧
    (xdp_step_stats route_map s pkt).cache_hits = s.cache_hits ∧
    (xdp_step_stats route_map s pkt).packets_passed +
        (xdp_step_stats route_map s pkt).packets_dropped ≤
      s.packets_passed + s.packets_dropped + 1 := by
  unfold xdp_step_stats
  cases hx : xdp_router_prog route_map s pkt with
  | none => exact absurd hx (xdp_not_none _ _ _)
  | some r =>
    obtain ⟨h1, h2, h3⟩ := xdp_run_shape _ _ _ _ hx
    refine ⟨h1, h2, ?_⟩
    show r.stats.packets_passed + r.stats.packets_dropped ≤
      s.packets_passed + s.packets_dropped + 1
    rcases h3 with ⟨ha, hb⟩ | ⟨ha, hb⟩ | ⟨ha, hb⟩ <;> omega

theorem xdp_run_all_inv (route_map : RouteKey → Option RouteValue)
    (pkts : List (List Nat)) : ∀ s : StatsValue,
    (xdp_run_all route_map s pkts).packets_total = s.packets_total + pkts.length ∧
    (xdp_run_all route_map s pkts).cache_hits = s.cache_hits ∧
    (xdp_run_all route_map s pkts).packets_passed +
        (xdp_run_all route_map s pkts).packets_dropped ≤
      s.packets_passed + s.packets_dropped + pkts.length := by
  induction pkts with
  | nil => intro s; simp [xdp_run_all]
  | cons pkt rest ih =>
    intro s
    obtain ⟨h1, h2, h3⟩ := xdp_step_stats_spec route_map s pkt
    obtain ⟨g1, g2, g3⟩ := ih (xdp_step_stats route_map s pkt)
    refine ⟨?_, ?_, ?_⟩ <;> simp only [xdp_run_all, List.length_cons] <;> omega

/-- C1: for every input packet buffer, including truncated ones, both hooks
never read at or past the buffer end: every modelled dereference is guarded,
so neither entry point ever produces the out-of-bounds outcome `none`; and
whenever a bounds/protocol check fails (the run ends with the lookup never
reached), the hook returns the pass-through verdict with no route or cache
lookup and no counter change beyond the initial total increment. -/
theorem C1_bounds_safety :
    (∀ route_map s pkt, xdp_router_prog route_map s pkt ≠ none) ∧
    (∀ http_cache now s pkt, tc_http_cache http_cache now s pkt ≠ none) ∧
    (∀ route_map s pkt r, xdp_router_prog route_map s pkt = some r →
        r.routeResult = none →
        r.verdict = XdpAction.pass ∧ r.stats = xdpTick s) ∧
    (∀ http_cache now s pkt r, tc_http_cache http_cache now s pkt = some r →
        r.cacheResult = none →
        r.verdict = TC_ACT_OK ∧ r.hash = none ∧ r.stats = tcTick s) :=
  ⟨xdp_not_none, tc_not_none,
   fun route_map s pkt r h hrr => xdp_bail_shape route_map s pkt r h hrr,
   fun http_cache now s pkt r h hcr => tc_bail_shape http_cache now s pkt r h hcr⟩

/-- C1 witness: the bail clauses applied to the empty (fully truncated)
buffer at both hooks. -/
theorem C1_bounds_safety_witness :
    ((⟨XdpAction.pass, xdpTick s0, none⟩ : XdpResult).verdict = XdpAction.pass ∧
      (⟨XdpAction.pass, xdpTick s0, none⟩ : XdpResult).stats = xdpTick s0) ∧
    ((tcBail (tcTick t0)).verdict = TC_ACT_OK ∧
      (tcBail (tcTick t0)).hash = none ∧
      (tcBail (tcTick t0)).stats = tcTick t0) :=
  ⟨C1_bounds_safety.2.2.1 (fun _ => none) s0 [] _ (by decide) rfl,
   C1_bounds_safety.2.2.2 emptyCache 0 t0 [] _ (by decide) rfl⟩

/-- C2 counterexample: on a route hit with the stored action 2 (redirect)
the verdict is the reflect verdict XDP_TX, but the counter incremented is
packets_passed — exactly the same stats update as a hit with action 0
(pass) — so redirect does not increment a counter specific to the redirect
action; no redirect-specific counter exists. -/
theorem C2_counterexample :
    (xdp_router_prog (fun _ => some ⟨2, 0, 0⟩) s0 pktTcp).map XdpResult.verdict =
        some XdpAction.tx ∧
    (xdp_router_prog (fun _ => some ⟨2, 0, 0⟩) s0 pktTcp).map XdpResult.stats =
        (xdp_router_prog (fun _ => some ⟨0, 0, 0⟩) s0 pktTcp).map XdpResult.stats ∧
    (xdp_router_prog (fun _ => some ⟨2, 0, 0⟩) s0 pktTcp).map
        (fun r => r.stats.packets_passed) = some (s0.packets_passed + 1) := by
  decide

/-- C2 (amended): on a route hit the verdict matches the stored action
(1 drops, 2 reflects back out with XDP_TX, anything else passes) and exactly
one counter increments exactly once: packets_dropped for action 1, and the
shared packets_passed counter for both redirect and pass (the program has
no redirect-specific counter). -/
theorem C2_route_hit_dispatch :
    ∀ route_map s pkt r v, xdp_router_prog route_map s pkt = some r →
      r.routeResult = some (some v) →
      ((v.action = 1 → r.verdict = XdpAction.drop ∧
          r.stats = ⟨s.packets_total + 1, s.packets_passed,
                     s.packets_dropped + 1, s.cache_hits⟩) ∧
       (v.action = 2 → r.verdict = XdpAction.tx ∧
          r.stats = ⟨s.packets_total + 1, s.packets_passed + 1,
                     s.packets_dropped, s.cache_hits⟩) ∧
       (v.action ≠ 1 → v.action ≠ 2 → r.verdict = XdpAction.pass ∧
          r.stats = ⟨s.packets_total + 1, s.packets_passed + 1,
                     s.packets_dropped, s.cache_hits⟩)) :=
  fun route_map s pkt r v h hrr => xdp_hit_shape route_map s pkt r v h hrr

/-- C2 witness: a drop hit on the concrete TCP frame. -/
theorem C2_route_hit_dispatch_witness :
    (⟨XdpAction.drop, ⟨1, 0, 1, 0⟩, some (some ⟨1, 0, 0⟩)⟩ : XdpResult).verdict
        = XdpAction.drop ∧
    (⟨XdpAction.drop, ⟨1, 0, 1, 0⟩, some (some ⟨1, 0, 0⟩)⟩ : XdpResult).stats =
      ⟨s0.packets_total + 1, s0.packets_passed, s0.packets_dropped + 1,
       s0.cache_hits⟩ :=
  (C2_route_hit_dispatch (fun _ => some ⟨1, 0, 0⟩) s0 pktTcp _ ⟨1, 0, 0⟩
      (by decide) rfl).1 rfl

/-- C3: the receive hook increments the total counter exactly once on every
invocation, whatever the packet (including malformed and non-IPv4 frames),
and so does the transmit hook on its stats slot 0; over any run starting
from zeroed counters the total equals the number of packets seen and bounds
the sum of all other outcome counters. -/
theorem C3_total_counter :
    (∀ route_map s pkt r, xdp_router_prog route_map s pkt = some r →
        r.stats.packets_total = s.packets_total + 1) ∧
    (∀ http_cache now s pkt r, tc_http_cache http_cache now s pkt = some r →
        r.stats.total = s.total + 1) ∧
    (∀ route_map pkts,
        (xdp_run_all route_map ⟨0, 0, 0, 0⟩ pkts).packets_total = pkts.length ∧
        (xdp_run_all route_map ⟨0, 0, 0, 0⟩ pkts).packets_passed +
            (xdp_run_all route_map ⟨0, 0, 0, 0⟩ pkts).packets_dropped +
            (xdp_run_all route_map ⟨0, 0, 0, 0⟩ pkts).cache_hits ≤
          (xdp_run_all route_map ⟨0, 0, 0, 0⟩ pkts).packets_total) := by
  refine ⟨fun route_map s pkt r h => (xdp_run_shape route_map s pkt r h).1,
          fun http_cache now s pkt r h => (tc_run_shape http_cache now s pkt r h).2.1,
          fun route_map pkts => ?_⟩
  obtain ⟨h1, h2, h3⟩ := xdp_run_all_inv route_map pkts ⟨0, 0, 0, 0⟩
  simp only [] at h1 h2 h3
  refine ⟨by omega, by omega⟩

/-- C3 witness: one truncated packet at each hook. -/
theorem C3_total_counter_witness :
    (⟨XdpAction.pass, xdpTick s0, none⟩ : XdpResult).stats.packets_total =
        s0.packets_total + 1 ∧
    (tcBail (tcTick t0)).stats.total = t0.total + 1 :=
  ⟨C3_total_counter.1 (fun _ => none) s0 [] _ (by decide),
   C3_total_counter.2.1 emptyCache 0 t0 [] _ (by decide)⟩

/-- C4: on a transmit-hook cache hit the entry is fresh iff the u64
difference now - timestamp is strictly below 60,000,000,000 ns; a fresh hit
increments the hit counter (slot 1) exactly once, a stale hit (including a
difference of exactly the TTL) or a miss leaves every counter unchanged
except the already-incremented total. -/
theorem C4_cache_ttl :
    (∀ http_cache now s pkt r v, tc_http_cache http_cache now s pkt = some r →
        r.cacheResult = some (some v) →
        ((sub64 now v.timestamp < CACHE_TTL_NS →
            r.stats = ⟨s.total + 1, s.hits + 1, s.slot2, s.slot3⟩) ∧
         (¬ sub64 now v.timestamp < CACHE_TTL_NS →
            r.stats = ⟨s.total + 1, s.hits, s.slot2, s.slot3⟩))) ∧
    (∀ http_cache now s pkt r, tc_http_cache http_cache now s pkt = some r →
        r.cacheResult = some none →
        r.stats = ⟨s.total + 1, s.hits, s.slot2, s.slot3⟩) :=
  ⟨fun http_cache now s pkt r v h hcr => tc_hit_shape http_cache now s pkt r v h hcr,
   fun http_cache now s pkt r h hcr => tc_miss_shape http_cache now s pkt r h hcr⟩

/-- C4 witness: a hit 5 ns after the write is fresh; a hit exactly TTL
nanoseconds after the write (the boundary) is stale. -/
theorem C4_cache_ttl_witness :
    tcGetRun.stats = ⟨t0.total + 1, t0.hits + 1, t0.slot2, t0.slot3⟩ ∧
    tcStaleRun.stats = ⟨t0.total + 1, t0.hits, t0.slot2, t0.slot3⟩ :=
  ⟨(C4_cache_ttl.1 cache0 105 t0 pktGet tcGetRun v0 (by decide) (by decide)).1
      (by decide),
   (C4_cache_ttl.1 cache0 60000000100 t0 pktGet tcStaleRun v0 (by decide)
      (by decide)).2 (by decide)⟩

/-- C5 counterexample: the transmit hook performs no IP version check — on a
frame whose IP version nibble is 5 it still reaches the cache lookup (the
lookup result is recorded), contradicting the claim that both hooks return
pass-through without a lookup when the version is not 4. -/
theorem C5_counterexample :
    byteAt pktGet5 14 = some 0x55 ∧ (0x55 : Nat) / 16 ≠ 4 ∧
    (tc_http_cache cache0 105 t0 pktGet5).map TcResult.cacheResult =
      some (some (some v0)) := by
  decide

/-- C5 (amended): the receive hook validates the IP version: any packet
whose version nibble is not 4 gets the pass-through verdict with no route
lookup and no counter change beyond total; the transmit hook checks only
bounds and protocol and performs no version check. -/
theorem C5_version_check :
    ∀ route_map s pkt r bv, xdp_router_prog route_map s pkt = some r →
      byteAt pkt 14 = some bv → bv / 16 ≠ 4 →
      r.verdict = XdpAction.pass ∧ r.routeResult = none ∧ r.stats = xdpTick s :=
  fun route_map s pkt r bv h hv hnv => xdp_version_shape route_map s pkt r bv h hv hnv

/-- C5 witness: the receive hook on the version-5 frame. -/
theorem C5_version_check_witness :
    (⟨XdpAction.pass, xdpTick s0, none⟩ : XdpResult).verdict = XdpAction.pass ∧
    (⟨XdpAction.pass, xdpTick s0, none⟩ : XdpResult).routeResult = none ∧
    (⟨XdpAction.pass, xdpTick s0, none⟩ : XdpResult).stats = xdpTick s0 :=
  C5_version_check (fun _ => none) s0 pktGet5 _ 0x55 (by decide) (by decide)
    (by decide)

/-- C6: whenever the transmit hook runs the URL scan, the token starts 4
bytes after the payload start, and its length is the number of bytes before
the first space/CR/LF, before the buffer end, or before the 192-byte cap,
whichever comes first; a zero-length result ends the run with no
fingerprint and no cache lookup and no counter change beyond total. -/
theorem C6_url_extraction :
    ∀ http_cache now s pkt r ust len,
      tc_http_cache http_cache now s pkt = some r →
      r.urlInfo = some (ust, len) →
      (∃ hs, r.httpStart = some hs ∧ ust = hs + 4) ∧
      len = (((pkt.drop ust).take MAX_URL_LEN).takeWhile
               (fun c => !(delim (c % 256)))).length ∧
      (len = 0 → r.hash = none ∧ r.cacheResult = none ∧ r.stats = tcTick s) := by
  intro http_cache now s pkt r ust len h hu
  obtain ⟨h1, h2, h3⟩ := tc_url_shape http_cache now s pkt r ust len h hu
  exact ⟨h1, by rw [h2, url_scan_eq], h3⟩

set_option maxRecDepth 10000 in
/-- C6 witness: on the "GET /a " payload the scan yields 2 bytes (stops at
the space); on a 200-byte URL with no delimiter it yields exactly 192. -/
theorem C6_url_extraction_witness :
    (2 = (((pktGet.drop 58).take MAX_URL_LEN).takeWhile
            (fun c => !(delim (c % 256)))).length) ∧
    (192 = (((pktLong.drop 58).take MAX_URL_LEN).takeWhile
              (fun c => !(delim (c % 256)))).length) :=
  ⟨(C6_url_extraction cache0 105 t0 pktGet tcGetRun 58 2 (by decide)
      (by decide)).2.1,
   (C6_url_extraction emptyCache 0 t0 pktLong tcLongRun 58 192 (by decide)
      (by decide)).2.1⟩

/-- C7: the fingerprint is the 64-bit FNV-1a fold (offset basis
0xcbf29ce484222325, prime 0x100000001b3) of at most the first 256 bytes of
the URL: the program hash equals the pure fold of the first min(256, len)
URL bytes (so it is a function of the bytes alone, hence deterministic),
and any two byte sequences of length at least 256 that agree on their
first 256 bytes get equal fingerprints. -/
theorem C7_fnv1a :
    (∀ pkt start len, start + min 256 len ≤ pkt.length →
        fnv1a_hash pkt start len =
          some (fnv1a_spec (((pkt.drop start).take len).map (fun b => b % 256)))) ∧
    (∀ l1 l2 : List Nat, l1.take 256 = l2.take 256 →
        256 ≤ l1.length → 256 ≤ l2.length → fnv1a_spec l1 = fnv1a_spec l2) :=
  ⟨fnv1a_hash_eq,
   fun l1 l2 h h1 h2 => by unfold fnv1a_spec; rw [h]⟩

set_option maxRecDepth 10000 in
/-- C7 witness: the program hash of the 2-byte URL of pktGet equals the
spec fold, and two 256-plus-byte lists agreeing on their first 256 bytes
hash equal although their tails differ. -/
theorem C7_fnv1a_witness :
    fnv1a_hash pktGet 58 2 =
      some (fnv1a_spec (((pktGet.drop 58).take 2).map (fun b => b % 256))) ∧
    fnv1a_spec (List.replicate 256 7 ++ [1]) =
      fnv1a_spec (List.replicate 256 7 ++ [2, 3]) :=
  ⟨C7_fnv1a.1 pktGet 58 2 (by decide),
   C7_fnv1a.2 (List.replicate 256 7 ++ [1]) (List.replicate 256 7 ++ [2, 3])
     (by decide) (by decide) (by decide)⟩

/-- C8: any frame whose Ethernet protocol field is not the IPv4 ethertype
gets the pass-through verdict at both hooks, with no route lookup, no cache
lookup, and no counter change beyond the total tick. -/
theorem C8_non_ipv4 :
    ∀ pkt p, readU16be pkt 12 = some p → p ≠ ETH_P_IP →
      (∀ route_map s r, xdp_router_prog route_map s pkt = some r →
          r.verdict = XdpAction.pass ∧ r.routeResult = none ∧
          r.stats = xdpTick s) ∧
      (∀ http_cache now s r, tc_http_cache http_cache now s pkt = some r →
          r.verdict = TC_ACT_OK ∧ r.cacheResult = none ∧ r.stats = tcTick s) :=
  fun pkt p hp hne =>
    ⟨fun route_map s r h => xdp_nonip_shape route_map s pkt r p h hp hne,
     fun http_cache now s r h => tc_nonip_shape http_cache now s pkt r p h hp hne⟩

/-- C8 witness: an ARP frame (ethertype 0x0806) at both hooks. -/
theorem C8_non_ipv4_witness :
    ((⟨XdpAction.pass, xdpTick s0, none⟩ : XdpResult).verdict = XdpAction.pass ∧
      (⟨XdpAction.pass, xdpTick s0, none⟩ : XdpResult).routeResult = none ∧
      (⟨XdpAction.pass, xdpTick s0, none⟩ : XdpResult).stats = xdpTick s0) ∧
    ((tcBail (tcTick t0)).verdict = TC_ACT_OK ∧
      (tcBail (tcTick t0)).cacheResult = none ∧
      (tcBail (tcTick t0)).stats = tcTick t0) :=
  ⟨(C8_non_ipv4 pktArp 0x0806 (by decide) (by decide)).1 (fun _ => none) s0 _
      (by decide),
   (C8_non_ipv4 pktArp 0x0806 (by decide) (by decide)).2 cache0 105 t0 _
      (by decide)⟩

/-- C9: an IPv4/TCP packet at the transmit hook whose destination port (in
host byte order) is not 80, 8080 or 3000 gets pass-through without reading
the method token, extracting a URL, computing a fingerprint, or doing a
cache lookup; no counter other than the already-incremented total changes. -/
theorem C9_port_allowlist :
    ∀ http_cache now s pkt r d, tc_http_cache http_cache now s pkt = some r →
      r.dport = some d → d ≠ 80 → d ≠ 8080 → d ≠ 3000 →
      r.verdict = TC_ACT_OK ∧ r.httpStart = none ∧ r.methodRaw = none ∧
        r.urlInfo = none ∧ r.hash = none ∧ r.cacheResult = none ∧
        r.stats = tcTick s :=
  fun http_cache now s pkt r d h hd h80 h8080 h3000 =>
    tc_port_shape http_cache now s pkt r d h hd h80 h8080 h3000

/-- C9 witness: the GET frame re-addressed to port 9999. -/
theorem C9_port_allowlist_witness :
    tcPortRun.verdict = TC_ACT_OK ∧ tcPortRun.httpStart = none ∧
      tcPortRun.methodRaw = none ∧ tcPortRun.urlInfo = none ∧
      tcPortRun.hash = none ∧ tcPortRun.cacheResult = none ∧
      tcPortRun.stats = tcTick t0 :=
  C9_port_allowlist cache0 105 t0 pktPort9999 tcPortRun 9999 (by decide)
    (by decide) (by decide) (by decide) (by decide)

/-- C10: a receive-hook route hit whose stored action byte is neither 1
(drop) nor 2 (redirect) — 0 and every out-of-range value alike — increments
packets_passed exactly once and returns the pass-through verdict, exactly
as the explicit pass action does. -/
theorem C10_default_action :
    ∀ route_map s pkt r v, xdp_router_prog route_map s pkt = some r →
      r.routeResult = some (some v) → v.action ≠ 1 → v.action ≠ 2 →
      r.verdict = XdpAction.pass ∧
        r.stats = ⟨s.packets_total + 1, s.packets_passed + 1,
                   s.packets_dropped, s.cache_hits⟩ :=
  fun route_map s pkt r v h hrr h1 h2 =>
    (xdp_hit_shape route_map s pkt r v h hrr).2.2 h1 h2

/-- C10 witness: hits with stored action 0 and with the out-of-range
action 7 on the concrete TCP frame both pass and increment packets_passed
once. -/
theorem C10_default_action_witness :
    (xdpRun0.verdict = XdpAction.pass ∧
      xdpRun0.stats = ⟨s0.packets_total + 1, s0.packets_passed + 1,
                       s0.packets_dropped, s0.cache_hits⟩) ∧
    (xdpRun7.verdict = XdpAction.pass ∧
      xdpRun7.stats = ⟨s0.packets_total + 1, s0.packets_passed + 1,
                       s0.packets_dropped, s0.cache_hits⟩) :=
  ⟨C10_default_action (fun _ => some ⟨0, 0, 0⟩) s0 pktTcp xdpRun0 ⟨0, 0, 0⟩
      (by decide) (by decide) (by decide) (by decide),
   C10_default_action (fun _ => some ⟨7, 0, 0⟩) s0 pktTcp xdpRun7 ⟨7, 0, 0⟩
      (by decide) (by decide) (by decide) (by decide)⟩
